import Mathlib

/-!
Verification development for the scVelo velocity estimation core
(`scvelo/tools/velocity.py` and its collaborators).

Embedding conventions:
* All numeric matrices are dense rational matrices in gene-major layout:
  `Mat := List (List ℚ)` where the outer index ranges over genes (columns of
  the `cells × genes` numpy array) and the inner index over cells.  Per-gene
  (axis-0) numpy operations such as `mean(0)`, `std(0)` and broadcasting a
  per-gene vector thus act on the outer list directly.
* numpy boolean-mask indexing `a[:, idx]` / `a[idx] = v` becomes `applyMask` /
  `scatterMask` on the outer (gene) list; row (cell) masks act on the inner
  lists.
* Floating point is modelled exactly over `ℚ`; thresholds like `.01` become
  `1/100`.
* The annotated dataset (`AnnData`) is modelled with its layers, obs and var
  tables as association lists, plus the stored shape.
-/

set_option linter.unusedVariables false

abbrev Mat : Type := List (List ℚ)

/-- Mean of a list of rationals; `0` on the empty list (numpy's `mean` over an
empty axis is NaN, but every use site in the modelled code has positive cell
count). -/
def qmean (l : List ℚ) : ℚ :=
  if l.length = 0 then 0 else l.sum / l.length

/-- Sum of squares of the entries. -/
def sumsq (l : List ℚ) : ℚ :=
  (l.map (fun x => x * x)).sum

/-- Centered sum of squares (`Σ (x - mean x)²`), the unnormalized variance of a
column. -/
def cssq (l : List ℚ) : ℚ :=
  sumsq (l.map (fun x => x - qmean l))

/-- Centered cross sum (`Σ (x - mean x)(y - mean y)`), the unnormalized
covariance of two columns. -/
def ccs (x y : List ℚ) : ℚ :=
  (List.zipWith (fun a b => (a - qmean x) * (b - qmean y)) x y).sum

/-- Per-column (per-gene) variance of a gene-major matrix; models the square of
`std(0)`. -/
def colVar (m : Mat) : List ℚ :=
  m.map (fun col => if col.length = 0 then 0 else cssq col / col.length)

/-- Boolean-mask selection (`l[mask]` on the masked axis): keeps the entries at
`true` positions of the mask. -/
def applyMask {α : Type} : List Bool → List α → List α
  | true :: bs, x :: xs => x :: applyMask bs xs
  | false :: bs, _ :: xs => applyMask bs xs
  | _, _ => []

/-- Boolean-mask assignment (`l[mask] = news`): replaces the entries at `true`
positions of the mask by successive entries of `news`, keeping the rest. -/
def scatterMask {α : Type} : List Bool → List α → List α → List α
  | [], old, _ => old
  | _ :: _, [], _ => []
  | true :: bs, _ :: os, n :: ns => n :: scatterMask bs os ns
  | true :: bs, o :: os, [] => o :: scatterMask bs os []
  | false :: bs, o :: os, ns => o :: scatterMask bs os ns

/-- `len(set(l)) > 1` for a boolean vector: the vector holds both values. -/
def hasTwoDistinct (l : List Bool) : Bool :=
  l.contains true && l.contains false

/-- `len(set(l)) > 1` for a rational vector: some entry differs from the
first. -/
def hasTwoDistinctQ (l : List ℚ) : Bool :=
  match l with
  | [] => false
  | x :: xs => xs.any (fun y => decide (y ≠ x))

def boolToQ (b : Bool) : ℚ := if b then 1 else 0

/-- Elementwise binary operation on two gene-major matrices. -/
def mzip (f : ℚ → ℚ → ℚ) (a b : Mat) : Mat :=
  List.zipWith (List.zipWith f) a b

/-- Broadcast of a per-gene scalar against a gene-major matrix
(`v * M`, `M - v`, ... along axis 1 of the numpy array). -/
def gzip (f : ℚ → ℚ → ℚ) (v : List ℚ) (m : Mat) : Mat :=
  List.zipWith (fun c col => col.map (f c)) v m

/-- A matrix of zeros of the same (possibly ragged) shape as `m`; models
`np.zeros(m.shape)`. -/
def zerosLike (m : Mat) : Mat :=
  m.map (fun col => col.map (fun _ => (0 : ℚ)))

/-- Center the columns of a gene-major matrix by their means
(`M - M.mean(0)`). -/
def centerCols (m : Mat) : Mat :=
  m.map (fun col => col.map (fun x => x - qmean col))

/-- Row (cell) restriction of a gene-major matrix by a boolean cell mask
(`M[subset]` on the numpy array). -/
def rowMask (sub : List Bool) (m : Mat) : Mat :=
  m.map (fun col => applyMask sub col)

/-- Modelled from the spec: `solve_cov` (`scvelo/tools/solver.py`, not part of
the provided sources).  Per gene column it returns the regression slope
`gamma = cov(X, Y) / var(X)` (0 when `var(X) = 0`, spec §4.1) and, when offset
fitting is requested, the intercept `offset = mean(Y) - gamma * mean(X)`,
otherwise 0.  Returns the pair `(offset, gamma)` of per-gene vectors in the
source's order. -/
def solve_cov (x y : Mat) (fit_offset : Bool) : List ℚ × List ℚ :=
  let cols := List.zipWith (fun cx cy =>
    let v := cssq cx
    let gamma := if v = 0 then 0 else ccs cx cy / v
    let off := if fit_offset then qmean cy - gamma * qmean cx else 0
    (off, gamma)) x y
  (cols.map (fun p => p.1), cols.map (fun p => p.2))

/-- Modelled from the spec: `R_squared` (`scvelo/tools/utils.py`, not part of
the provided sources).  Per gene column `1 - Σ residual² / Σ total²`, with a
zero-variance `total` column yielding 0 instead of a division by zero
(spec §4.2). -/
def R_squared (residual total : Mat) : List ℚ :=
  List.zipWith (fun r t =>
    let st := sumsq t
    if st = 0 then 0 else 1 - sumsq r / st) residual total

/-- Modelled from the spec: `solve2_inv` (`scvelo/tools/solver.py`, not part of
the provided sources).  A generalized least-squares combination of the first-
and second-order regression targets with inverse-variance weights
`1/max(var, floor)` per target (spec §4.1; the source passes the standard
deviations and the solver squares them, the model passes the variances
directly since only the squares enter the weights).  Returns the triple
`(offset, offset2, gamma)` of per-gene vectors. -/
def solve2_inv (ms mu var_ss cov_us : Mat) (resVar res2Var : List ℚ)
    (fit_offset fit_offset2 : Bool) : List ℚ × List ℚ × List ℚ :=
  let eps : ℚ := 1 / 1000000
  let cols := List.zipWith (fun (p : (List ℚ × List ℚ) × (List ℚ × List ℚ)) (w : ℚ × ℚ) =>
    let cx := p.1.1
    let cy := p.1.2
    let dx := p.2.1
    let dy := p.2.2
    let w1 := 1 / max w.1 eps
    let w2 := 1 / max w.2 eps
    let den := w1 * cssq cx + w2 * cssq dx
    let gamma := if den = 0 then 0 else (w1 * ccs cx cy + w2 * ccs dx dy) / den
    let off := if fit_offset then qmean cy - gamma * qmean cx else 0
    let off2 := if fit_offset2 then qmean dy - gamma * qmean dx else 0
    (off, off2, gamma)) ((ms.zip mu).zip (var_ss.zip cov_us)) (resVar.zip res2Var)
  (cols.map (fun p => p.1), cols.map (fun p => p.2.1), cols.map (fun p => p.2.2))

/-- Modelled from the spec: `solve2_mle` (`scvelo/tools/solver.py`, not part of
the provided sources).  An iterative maximum-likelihood refinement of the same
`(offset, offset2, gamma)` triple (spec §4.1 requires only that it returns a
best-available estimate); modelled as the closed-form generalized
least-squares triple with unit weights over the reconstructed second-order
statistics. -/
def solve2_mle (ms mu mus mss : Mat) (fit_offset fit_offset2 : Bool) :
    List ℚ × List ℚ × List ℚ :=
  let var_ss := mzip (fun vss m => 2 * vss - m) mss ms
  let cov_us := mzip (fun vus u => 2 * vus + u) mus mu
  let ones := ms.map (fun _ => (1 : ℚ))
  solve2_inv ms mu var_ss cov_us ones ones fit_offset fit_offset2

/-- The annotated dataset: matrix layers, per-cell (`obs`) and per-gene
(`var`) annotation tables as association lists, plus the stored shape.  Per
the embedding convention, layer matrices are gene-major. -/
structure AnnData where
  n_obs : ℕ
  n_vars : ℕ
  layers : List (String × Mat)
  obs : List (String × List String)
  var : List (String × List ℚ)
  deriving DecidableEq, Repr

/-- Insert-or-replace on an association list (dict-style assignment). -/
def upsert {β : Type} (k : String) (v : β) (l : List (String × β)) :
    List (String × β) :=
  if l.any (fun p => p.1 == k) then
    l.map (fun p => if p.1 == k then (k, v) else p)
  else l ++ [(k, v)]

/-- Layer lookup defaulting to the empty matrix (a missing layer is a
`KeyError` in the source; no modelled claim reaches that case). -/
def AnnData.layerD (a : AnnData) (k : String) : Mat :=
  (a.layers.lookup k).getD []

def AnnData.setLayer (k : String) (m : Mat) (a : AnnData) : AnnData :=
  { a with layers := upsert k m a.layers }

def AnnData.setVar (k : String) (v : List ℚ) (a : AnnData) : AnnData :=
  { a with var := upsert k v a.var }

/-- Count of `true` entries of a boolean mask. -/
def countTrue (l : List Bool) : ℕ := (applyMask l l).length

/-- Gene (column) restriction of the dataset: `adata[:, idx]` as a view, and
also the content effect of `adata._inplace_subset_var(idx)` — every layer and
every per-gene annotation column is narrowed to the masked genes. -/
def AnnData.subsetVars (idx : List Bool) (a : AnnData) : AnnData :=
  { a with
    n_vars := countTrue idx
    layers := a.layers.map (fun p => (p.1, applyMask idx p.2))
    var := a.var.map (fun p => (p.1, applyMask idx p.2)) }

/-- Cell (row) restriction of the dataset: `adata[groups]` for a boolean cell
mask — every layer loses the masked-out rows, every per-cell annotation
column is narrowed. -/
def AnnData.rowRestrict (m : List Bool) (a : AnnData) : AnnData :=
  { a with
    n_obs := countTrue m
    layers := a.layers.map (fun p => (p.1, p.2.map (applyMask m)))
    obs := a.obs.map (fun p => (p.1, applyMask m p.2)) }

/-- Modelled from the spec: the `moments` collaborator
(`scvelo/preprocessing/moments.py`, not part of the provided sources), which
populates the first-order smoothed layers `Ms`/`Mu` as a side effect on the
dataset (spec §4.4 step 2, §6); modelled with identity smoothing of the
`spliced`/`unspliced` layers. -/
def moments (a : AnnData) : AnnData :=
  AnnData.setLayer "Mu" (a.layerD "unspliced") (AnnData.setLayer "Ms" (a.layerD "spliced") a)

/-- Modelled from the spec: the `second_order_moments` collaborator
(`scvelo/preprocessing/moments.py`, not part of the provided sources),
producing second-order smoothed spliced-spliced and unspliced-spliced
statistics of whatever dataset view is passed in (spec §6); modelled with
identity smoothing (`⟨s·s⟩`, `⟨u·s⟩`) of the view's `Ms`/`Mu` layers.  The
driver-level theorems quantify over an arbitrary collaborator; this concrete
model instantiates them. -/
def second_order_moments (a : AnnData) : Mat × Mat :=
  (mzip (fun s t => s * t) (a.layerD "Ms") (a.layerD "Ms"),
   mzip (fun u s => u * s) (a.layerD "Mu") (a.layerD "Ms"))

/-- The state of the `Velocity` estimator: its working matrices, the two
residual layers and the six per-gene parameter vectors
(`velocity.py`, class `Velocity`). -/
structure Velocity where
  adata : AnnData
  Ms : Mat
  Mu : Mat
  residual : Option Mat
  residual2 : Option Mat
  offset : List ℚ
  offset2 : List ℚ
  gamma : List ℚ
  r2 : List ℚ
  beta : List ℚ
  velocity_genes : List Bool
  subset : Option (List Bool)
  deriving DecidableEq, Repr

/-- `Velocity.__init__` (velocity.py lines 12-24).  The working matrices come
from the raw `spliced`/`unspliced` layers when `use_raw` is set, else from an
explicitly supplied matrix, else from the smoothed `Ms`/`Mu` layers; the
parameter vectors are zero-initialized (ones for `beta`), the gene mask
all-true, and an optional precomputed residual is carried over.  (Sparse
densification is dropped: the model is dense throughout.) -/
def Velocity.init (adata : AnnData) (ms mu : Option Mat) (subset : Option (List Bool))
    (residual : Option Mat) (use_raw : Bool) : Velocity :=
  let theMs := if use_raw then adata.layerD "spliced" else
    match ms with
    | none => adata.layerD "Ms"
    | some m => m
  let theMu := if use_raw then adata.layerD "unspliced" else
    match mu with
    | none => adata.layerD "Mu"
    | some m => m
  let n_vars := theMs.length
  { adata := adata
    Ms := theMs
    Mu := theMu
    residual := residual
    residual2 := none
    offset := List.replicate n_vars 0
    offset2 := List.replicate n_vars 0
    gamma := List.replicate n_vars 0
    r2 := List.replicate n_vars 0
    beta := List.replicate n_vars 1
    velocity_genes := List.replicate n_vars true
    subset := subset }

/-- `Velocity.compute_deterministic` (velocity.py lines 26-33): covariance
solve on `(Ms, Mu)` (restricted to the fitting-cell subset when present),
first-order residual `Mu - gamma * Ms` (minus `offset` when offset fitting),
`R²` against the column-centered `Mu`, and the velocity-gene mask rule
`(r2 > .01) & (gamma > .01)`. -/
def Velocity.compute_deterministic (fit_offset : Bool) (s : Velocity) : Velocity :=
  let solved := match s.subset with
    | none => solve_cov s.Ms s.Mu fit_offset
    | some sub => solve_cov (rowMask sub s.Ms) (rowMask sub s.Mu) fit_offset
  let offset := solved.1
  let gamma := solved.2
  let residual0 := mzip (fun u gm => u - gm) s.Mu (gzip (fun g m => g * m) gamma s.Ms)
  let residual := if fit_offset then gzip (fun o x => x - o) offset residual0 else residual0
  let r2 := R_squared residual (centerCols s.Mu)
  let velocity_genes := List.zipWith
    (fun r g => decide ((1 : ℚ)/100 < r) && decide ((1 : ℚ)/100 < g)) r2 gamma
  { s with offset := offset, gamma := gamma, residual := some residual,
           r2 := r2, velocity_genes := velocity_genes }

/-- `Velocity.compute_stochastic` (velocity.py lines 35-71), parameterized by
the external `second_order_moments` collaborator `som` (spec §6).  Returns the
updated state together with the flag whether the deterministic stage was
auto-invoked (line 36).  Notes kept from the source: when the gene mask is not
a proper subset (`is_subset` false) all matrices stay full-width but the
parameter writes still go through the boolean mask (lines 57-59); the
second-order residual is scattered into a zero matrix of the full shape only
in the proper-subset case (lines 67-71).  (With an all-false mask and at least
one gene the source's masked assignment would raise a shape error; the model
leaves the old entries in place — no modelled claim reaches that case.) -/
def Velocity.compute_stochastic (som : AnnData → Mat × Mat)
    (fit_offset fit_offset2 : Bool) (mode : Option String) (s : Velocity) :
    Velocity × Bool :=
  let ranDet := s.residual.isNone
  let s := if s.residual.isNone then s.compute_deterministic fit_offset else s
  let idx := s.velocity_genes
  let is_subset := hasTwoDistinct idx
  let sAdata := if is_subset then AnnData.subsetVars idx s.adata else s.adata
  let sMs := if is_subset then applyMask idx s.Ms else s.Ms
  let sMu := if is_subset then applyMask idx s.Mu else s.Mu
  let sResidual := if is_subset then applyMask idx (s.residual.getD []) else s.residual.getD []
  let som2 := som sAdata
  let sMss := som2.1
  let sMus := som2.2
  let var_ss := mzip (fun vss m => 2 * vss - m) sMss sMs
  let cov_us := mzip (fun vus u => 2 * vus + u) sMus sMu
  let seed := solve_cov var_ss cov_us fit_offset2
  let sOffset2 := seed.1
  let sGamma2 := seed.2
  let resVar := colVar sResidual
  let res2Var := colVar (gzip (fun o x => x - o) sOffset2
    (mzip (fun cu gv => cu - gv) cov_us (gzip (fun g v => g * v) sGamma2 var_ss)))
  let solved := if mode = some "bayes" then solve2_mle sMs sMu sMus sMss fit_offset fit_offset2
    else solve2_inv sMs sMu var_ss cov_us resVar res2Var fit_offset fit_offset2
  let offset := scatterMask idx s.offset solved.1
  let offset2 := scatterMask idx s.offset2 solved.2.1
  let gamma := scatterMask idx s.gamma solved.2.2
  let residual0 := mzip (fun u gm => u - gm) s.Mu (gzip (fun g m => g * m) gamma s.Ms)
  let residual := if fit_offset then gzip (fun o x => x - o) offset residual0 else residual0
  let gIdx := applyMask idx gamma
  let oIdx := applyMask idx offset
  let o2Idx := applyMask idx offset2
  let sResidual2 := mzip (fun a b => a - b)
    (mzip (fun cu mmu => cu - 2 * mmu) cov_us (mzip (fun m u => m * u) sMs sMu))
    (gzip (fun g v => g * v) gIdx
      (mzip (fun vs m2 => vs - 2 * m2) var_ss (mzip (fun m n => m * n) sMs sMs)))
  let sResidual2 := if fit_offset
    then mzip (fun a b => a + b) sResidual2 (gzip (fun o m => 2 * o * m) oIdx sMs)
    else sResidual2
  let sResidual2 := if fit_offset2
    then gzip (fun o x => x - o) o2Idx sResidual2
    else sResidual2
  let residual2 := if is_subset then scatterMask idx (zerosLike s.Ms) sResidual2 else sResidual2
  ({ s with offset := offset, offset2 := offset2, gamma := gamma,
            residual := some residual, residual2 := some residual2 }, ranDet)

/-- `Velocity.get_residuals` (velocity.py lines 79-80). -/
def Velocity.get_residuals (s : Velocity) : Option Mat × Option Mat :=
  (s.residual, s.residual2)

/-- `Velocity.get_pars` (velocity.py lines 82-83); the boolean gene mask is
encoded as a 0/1 rational vector so the six vectors are homogeneous. -/
def Velocity.get_pars (s : Velocity) : List (List ℚ) :=
  [s.offset, s.offset2, s.beta, s.gamma, s.r2, s.velocity_genes.map boolToQ]

/-- `Velocity.get_pars_names` (velocity.py lines 85-86). -/
def Velocity.get_pars_names : List String :=
  ["_offset", "_offset2", "_beta", "_gamma", "_r2", "_genes"]

/-- The `groups` argument of the driver: absent, a single label, or a list of
group labels (velocity.py lines 124-125). -/
inductive GroupsArg where
  | noneA
  | str (s : String)
  | labels (ls : List String)
  deriving DecidableEq, Repr

/-- Dataset-affecting actions of one driver call, in execution order.  Each
constructor corresponds to a fixed program point of `velocity(...)`:
the `moments` side effect (line 122), completion of a fitting stage
(lines 137/146, line 36 for the auto-invoked deterministic stage), the
in-place gene narrowing (lines 144/170), the residual-layer write-back
(lines 148-158) and the per-gene annotation writes (line 162). -/
inductive Event where
  | writeMoments
  | stageDet
  | stageStoch
  | subsetVar
  | resultLayer (k : String)
  | writeVar (k : String)
  deriving DecidableEq, Repr

def Event.isStage : Event → Bool
  | .stageDet => true
  | .stageStoch => true
  | _ => false

/-- Any write to the dataset: layers (moments side effect, residual layers),
gene narrowing, or annotation columns. -/
def Event.isDataWrite : Event → Bool
  | .writeMoments => true
  | .subsetVar => true
  | .resultLayer _ => true
  | .writeVar _ => true
  | _ => false

/-- A write of the call's results: residual layers and annotation columns. -/
def Event.isResultWrite : Event → Bool
  | .resultLayer _ => true
  | .writeVar _ => true
  | _ => false

/-- Every event satisfying `w` occurs after every fitting-stage event of the
trace (no stage event strictly follows it). -/
def writesOnlyAfterStages (w : Event → Bool) : List Event → Bool
  | [] => true
  | e :: rest => (!(w e) || rest.all (fun x => !x.isStage)) && writesOnlyAfterStages w rest

/-- Group resolution (velocity.py lines 124-130): a single label becomes a
one-element list; a label list is resolved against the explicit `groupby`
column if it exists in `obs`, else against `clusters`, else `louvain`, and
turned into the boolean cell mask `key ∈ groups`; with no resolvable column
the call raises (`ValueError('groupby attribute not valid.')`, the spec's
`ConfigurationError`). -/
def resolveGroups (obs : List (String × List String)) (groups : GroupsArg)
    (groupby : Option String) : Except Unit (Option (List Bool)) :=
  let glabels : Option (List String) := match groups with
    | .noneA => none
    | .str s => some [s]
    | .labels ls => some ls
  match glabels with
  | none => .ok none
  | some ls =>
    let fallback : Option String :=
      if obs.any (fun p => p.1 == "clusters") then some "clusters"
      else if obs.any (fun p => p.1 == "louvain") then some "louvain"
      else none
    let gb : Option String := match groupby with
      | some g => if obs.any (fun p => p.1 == g) then some g else fallback
      | none => fallback
    match gb with
    | some g => .ok (some (((obs.lookup g).getD []).map (fun key => ls.contains key)))
    | none => .error ()

/-- Substring test on character lists (Python's `in` on strings). -/
def listInfix (s t : List Char) : Bool :=
  (List.range (t.length + 1)).any (fun i => s.isPrefixOf (t.drop i))

/-- velocity.py line 139: the mode requests stochastic behaviour when it is a
substring of one of `stochastic`, `bayes`, `alpha`; `None` means
deterministic only. -/
def stochasticFlag (mode : Option String) : Bool :=
  match mode with
  | none => false
  | some m => ["stochastic", "bayes", "alpha"].any (fun item => listInfix m.toList item.toList)

def zerosMat (nv no : ℕ) : Mat := List.replicate nv (List.replicate no (0 : ℚ))

/-- velocity.py lines 150-151: allocate a zero layer of the dataset's shape
under `k` unless present. -/
def AnnData.ensureLayer (k : String) (a : AnnData) : AnnData :=
  if (a.layers.lookup k).isSome then a else a.setLayer k (zerosMat a.n_vars a.n_obs)

/-- velocity.py line 152/158: `adata.layers[k][groups] = newM` — write the
fitted rows back at the group's cell positions of layer `k`. -/
def AnnData.writeRows (k : String) (m : List Bool) (newM : Mat) (a : AnnData) : AnnData :=
  a.setLayer k (List.zipWith (fun oldc newc => scatterMask m oldc newc) (a.layerD k) newM)

/-- One iteration of the parameter write-back loop (velocity.py line 162):
write `adata.var[vkey + nm]` when the vector has more than one distinct
value. -/
def writePar (vkey nm : String) (p : List ℚ) (st : AnnData × List Event) :
    AnnData × List Event :=
  if hasTwoDistinctQ p then
    (AnnData.setVar (vkey ++ nm) p st.1, st.2 ++ [Event.writeVar (vkey ++ nm)])
  else st

/-- The parameter write-back loop over the six `(name, vector)` pairs of
`get_pars`/`get_pars_names` (velocity.py lines 160-162), unrolled in loop
order. -/
def writePars (vkey : String) (v : Velocity) (a : AnnData) : AnnData × List Event :=
  writePar vkey "_genes" (v.velocity_genes.map boolToQ)
    (writePar vkey "_r2" v.r2
      (writePar vkey "_gamma" v.gamma
        (writePar vkey "_beta" v.beta
          (writePar vkey "_offset2" v.offset2
            (writePar vkey "_offset" v.offset (a, []))))))

/-- velocity.py line 122: trigger the `moments` collaborator when `Ms` is
absent and raw mode is not requested. -/
def prepData (data : AnnData) (use_raw : Bool) : AnnData :=
  if !use_raw && (data.layers.lookup "Ms").isNone then moments data else data

def prepEvents (data : AnnData) (use_raw : Bool) : List Event :=
  if !use_raw && (data.layers.lookup "Ms").isNone then [Event.writeMoments] else []

/-- velocity.py line 132: the (possibly group-restricted) view the estimator
is built over. -/
def fitView (a : AnnData) (gOpt : Option (List Bool)) : AnnData :=
  match gOpt with
  | none => a
  | some m => a.rowRestrict m

/-- velocity.py lines 136-137: construct the estimator over the fit view and
run the deterministic stage. -/
def detVelo (a : AnnData) (gOpt : Option (List Bool)) (sff : Option (List Bool))
    (use_raw : Bool) (fit_offset : Bool) : Velocity :=
  Velocity.compute_deterministic fit_offset (Velocity.init (fitView a gOpt) none none sff none use_raw)

/-- Outcome of the body of one driver call on the working dataset: the
post-state (also carried on the error raised by group resolution, since the
`moments` side effect precedes the raise), the event trace, and the final
estimator. -/
structure CoreOut where
  res : Except AnnData AnnData
  trace : List Event
  velo : Option Velocity
  deriving Repr

/-- The body of `velocity(...)` (velocity.py lines 121-170) acting on the
working dataset, parameterized by the external `second_order_moments`
collaborator `som`.  In the filtering branch (lines 142-145) the source
rebuilds the estimator over the `_adata` view of the narrowed dataset; the
model recomputes the view from the narrowed dataset (for `groups=None` the
view *is* the narrowed dataset, as in the source). -/
def velocityCore (som : AnnData → Mat × Mat) (data : AnnData) (vkey : String)
    (mode : Option String) (fit_offset fit_offset2 filter_genes : Bool)
    (groups : GroupsArg) (groupby : Option String) (sff : Option (List Bool))
    (use_raw : Bool) : CoreOut :=
  let adata := prepData data use_raw
  let ev0 := prepEvents data use_raw
  match resolveGroups adata.obs groups groupby with
  | .error _ => ⟨.error adata, ev0, none⟩
  | .ok gOpt =>
    let velo := detVelo adata gOpt sff use_raw fit_offset
    let ev1 := ev0 ++ [Event.stageDet]
    if stochasticFlag mode then
      let vkey2 := "variance_" ++ vkey
      let doFilter := filter_genes && hasTwoDistinct velo.velocity_genes
      let idx := velo.velocity_genes
      let adata2 := if doFilter then AnnData.subsetVars idx adata else adata
      let velo2 := if doFilter then
          Velocity.init (fitView adata2 gOpt) none none sff
            (some (applyMask idx (velo.residual.getD []))) false
        else velo
      let ev2 := ev1 ++ (if doFilter then [Event.subsetVar] else [])
      let stoch := Velocity.compute_stochastic som fit_offset fit_offset2 mode velo2
      let velo3 := stoch.1
      let ev3 := ev2 ++ (if stoch.2 then [Event.stageDet] else []) ++ [Event.stageStoch]
      let adata3 := match gOpt with
        | none =>
          AnnData.setLayer vkey2 (velo3.get_residuals.2.getD [])
            (AnnData.setLayer vkey (velo3.get_residuals.1.getD []) adata2)
        | some m =>
          AnnData.writeRows vkey2 m (velo3.get_residuals.2.getD [])
            (AnnData.writeRows vkey m (velo3.get_residuals.1.getD [])
              (AnnData.ensureLayer vkey2 (AnnData.ensureLayer vkey adata2)))
      let evW := [Event.resultLayer vkey, Event.resultLayer vkey2]
      let wp := writePars vkey velo3 adata3
      let doFinal := filter_genes && hasTwoDistinct velo3.velocity_genes
      let adata5 := if doFinal then AnnData.subsetVars velo3.velocity_genes wp.1 else wp.1
      ⟨.ok adata5, ev3 ++ evW ++ wp.2 ++ (if doFinal then [Event.subsetVar] else []), some velo3⟩
    else
      let adata3 := match gOpt with
        | none => AnnData.setLayer vkey (velo.get_residuals.1.getD []) adata
        | some m =>
          AnnData.writeRows vkey m (velo.get_residuals.1.getD [])
            (AnnData.ensureLayer vkey adata)
      let evW := [Event.resultLayer vkey]
      let wp := writePars vkey velo adata3
      let doFinal := filter_genes && hasTwoDistinct velo.velocity_genes
      let adata5 := if doFinal then AnnData.subsetVars velo.velocity_genes wp.1 else wp.1
      ⟨.ok adata5, ev1 ++ evW ++ wp.2 ++ (if doFinal then [Event.subsetVar] else []), some velo⟩

/-- Observable outcome of one `velocity(...)` call: the caller dataset's state
after the call (`post`) and the returned value (`retOpt`, a dataset for
`copy=True`, `None` otherwise). -/
inductive VResult where
  | ok (post : AnnData) (ret : Option AnnData)
  | err (post : AnnData)
  deriving DecidableEq, Repr

def VResult.post : VResult → AnnData
  | .ok p _ => p
  | .err p => p

def VResult.retOpt : VResult → Option AnnData
  | .ok _ r => r
  | .err _ => none

def VResult.isOk : VResult → Bool
  | .ok _ _ => true
  | .err _ => false

structure RunOut where
  res : VResult
  trace : List Event
  velo : Option Velocity
  deriving DecidableEq, Repr

/-- The driver `velocity(...)` (velocity.py lines 89-172).  `data.copy() if
copy else data` (line 121) means the body acts on an independent copy when
`copy=True` — the caller's dataset keeps its original value and the body's
final state is returned (line 172) — and acts on the caller's dataset itself
when `copy=False`, returning `None`. -/
def velocity (som : AnnData → Mat × Mat) (data : AnnData) (vkey : String)
    (mode : Option String) (fit_offset fit_offset2 filter_genes : Bool)
    (groups : GroupsArg) (groupby : Option String) (sff : Option (List Bool))
    (use_raw copy : Bool) : RunOut :=
  let c := velocityCore som data vkey mode fit_offset fit_offset2 filter_genes
    groups groupby sff use_raw
  match c.res with
  | .error st => ⟨.err (if copy then data else st), c.trace, c.velo⟩
  | .ok st => ⟨.ok (if copy then data else st) (if copy then some st else none), c.trace, c.velo⟩

/-- Cell lookup of a gene-major matrix: gene `g`, cell `i`. -/
def entry? (m : Mat) (g i : ℕ) : Option ℚ :=
  (m[g]?).bind (fun col => col[i]?)

/-- A concrete two-gene, two-cell dataset for witnesses: gene 0 has
`unspliced = 2 * spliced` (a perfect fit, `gamma = 2`, `r2 = 1`), gene 1 is
identically zero (`gamma = 0`), so the deterministic stage yields the
non-trivial velocity-gene mask `[true, false]`. -/
def dataA : AnnData :=
  { n_obs := 2, n_vars := 2,
    layers := [("spliced", [[1, 2], [0, 0]]), ("unspliced", [[2, 4], [0, 0]])],
    obs := [], var := [] }

/-- `dataA` with its smoothed layers already present (as the `moments` model
would produce them). -/
def dataAM : AnnData :=
  { n_obs := 2, n_vars := 2,
    layers := [("Ms", [[1, 2], [0, 0]]), ("Mu", [[2, 4], [0, 0]])],
    obs := [], var := [] }

/-- The estimator state at the end of a deterministic stage over `dataAM`:
residual present, velocity-gene mask `[true, false]`. -/
def veloS : Velocity :=
  Velocity.compute_deterministic false (Velocity.init dataAM none none none none false)

/-- A one-gene dataset whose deterministic stage yields the trivial all-true
mask, for the stochastic-formula witness. -/
def dataT : AnnData :=
  { n_obs := 2, n_vars := 1,
    layers := [("Ms", [[1, 2]]), ("Mu", [[2, 4]])],
    obs := [], var := [] }

/-- The estimator state at the end of a deterministic stage over `dataT`
(all-true mask). -/
def veloT : Velocity :=
  Velocity.compute_deterministic true (Velocity.init dataT none none none none false)

/-- `dataA` with a pre-existing `variance_velocity` layer, exhibiting that the
end-of-call gene narrowing subsets every layer, a pre-existing variance layer
included. -/
def dataB : AnnData :=
  { n_obs := 2, n_vars := 2,
    layers := [("spliced", [[1, 2], [0, 0]]), ("unspliced", [[2, 4], [0, 0]]),
               ("variance_velocity", [[5, 5], [6, 6]])],
    obs := [], var := [] }

theorem getElem?_zipWith2 {α β γ : Type} (f : α → β → γ) (a : List α) (b : List β) (i : ℕ) :
    (List.zipWith f a b)[i]? = (a[i]?).bind (fun x => (b[i]?).map (f x)) := by
  induction a generalizing b i with
  | nil => simp
  | cons p ps ih =>
    cases b with
    | nil => simp
    | cons q qs =>
      cases i with
      | zero => simp
      | succ i => simpa using ih qs i

theorem entry?_mzip (f : ℚ → ℚ → ℚ) (a b : Mat) (g i : ℕ) :
    entry? (mzip f a b) g i
      = (entry? a g i).bind (fun x => (entry? b g i).map (f x)) := by
  unfold entry? mzip
  rw [getElem?_zipWith2]
  cases ha : a[g]? with
  | none => simp
  | some ca =>
    cases hb : b[g]? with
    | none => simp
    | some cb => simp [getElem?_zipWith2]

theorem entry?_gzip (f : ℚ → ℚ → ℚ) (v : List ℚ) (m : Mat) (g i : ℕ) :
    entry? (gzip f v m) g i
      = (v[g]?).bind (fun c => (entry? m g i).map (f c)) := by
  unfold entry? gzip
  rw [getElem?_zipWith2]
  cases hv : v[g]? with
  | none => simp
  | some c =>
    cases hm : m[g]? with
    | none => simp
    | some col => simp [List.getElem?_map]

theorem scatterMask_getElem?_of_false {α : Type} (m : List Bool) (old news : List α) (g : ℕ)
    (h : m[g]? = some false) :
    (scatterMask m old news)[g]? = old[g]? := by
  induction m generalizing old news g with
  | nil => simp at h
  | cons b bs ih =>
    cases old with
    | nil => cases b <;> simp [scatterMask]
    | cons o os =>
      cases g with
      | zero =>
        simp at h
        subst h
        simp [scatterMask]
      | succ g =>
        simp at h
        cases b with
        | false => simpa [scatterMask] using ih os news g h
        | true =>
          cases news with
          | nil => simpa [scatterMask] using ih os [] g h
          | cons n ns => simpa [scatterMask] using ih os ns g h

theorem applyMask_allTrue {α : Type} {mask : List Bool} (l : List α) {g : ℕ}
    (hmask : false ∉ mask) (hg : g < mask.length) :
    (applyMask mask l)[g]? = l[g]? := by
  induction mask generalizing l g with
  | nil => simp at hg
  | cons b bs ih =>
    have hb : b = true := by
      cases b
      · exact absurd (List.mem_cons_self _ _) hmask
      · rfl
    subst hb
    cases l with
    | nil => simp [applyMask]
    | cons x xs =>
      cases g with
      | zero => simp [applyMask]
      | succ g =>
        have hbs : false ∉ bs := fun h => hmask (List.mem_cons_of_mem _ h)
        simpa [applyMask] using ih xs hbs (Nat.lt_of_succ_lt_succ hg)

theorem hasTwoDistinct_allTrue {l : List Bool} (h : false ∉ l) :
    hasTwoDistinct l = false := by
  have hc : l.contains false = false := by simpa using h
  unfold hasTwoDistinct
  rw [hc, Bool.and_false]

/-- Claim C3: the velocity-gene mask is initialized all-true at estimator
construction, and after `compute_deterministic` the mask entry of every gene
is exactly `(r2 > .01) && (gamma > .01)` over the `r2` and `gamma` values
fitted in that deterministic stage. -/
theorem velocity_genes_mask_rule (adata : AnnData) (ms mu : Option Mat)
    (subset : Option (List Bool)) (residual : Option Mat) (use_raw : Bool)
    (fit_offset : Bool) (s : Velocity) :
    (Velocity.init adata ms mu subset residual use_raw).velocity_genes
      = List.replicate (Velocity.init adata ms mu subset residual use_raw).Ms.length true
    ∧ (Velocity.compute_deterministic fit_offset s).velocity_genes
      = List.zipWith (fun r g => decide ((1 : ℚ)/100 < r) && decide ((1 : ℚ)/100 < g))
          (Velocity.compute_deterministic fit_offset s).r2
          (Velocity.compute_deterministic fit_offset s).gamma :=
  ⟨rfl, rfl⟩

/-- Claim C10: with `use_raw = true` the estimator always takes its working
matrices from the raw `spliced`/`unspliced` layers, ignoring any explicitly
supplied `Ms`/`Mu` arguments. -/
theorem init_use_raw_ignores_supplied (adata : AnnData) (ms mu : Option Mat)
    (subset : Option (List Bool)) (residual : Option Mat) :
    (Velocity.init adata ms mu subset residual true).Ms = adata.layerD "spliced"
    ∧ (Velocity.init adata ms mu subset residual true).Mu = adata.layerD "unspliced" :=
  ⟨rfl, rfl⟩

/-- Claim C2: in a stochastic fit with a proper-subset velocity-gene mask, a
gene `g` excluded by the mask keeps its `offset`, `offset2` and `gamma`
entries from the end of the deterministic stage, and its column of the
second-order residual (`variance_velocity`) is all zero. -/
theorem compute_stochastic_frame (som : AnnData → Mat × Mat) (fit_offset fit_offset2 : Bool)
    (mode : Option String) (s : Velocity) (r : Mat) (g : ℕ)
    (hres : s.residual = some r)
    (hsub : hasTwoDistinct s.velocity_genes = true)
    (hg : s.velocity_genes[g]? = some false) :
    ((Velocity.compute_stochastic som fit_offset fit_offset2 mode s).1.offset[g]?
        = s.offset[g]?)
    ∧ ((Velocity.compute_stochastic som fit_offset fit_offset2 mode s).1.offset2[g]?
        = s.offset2[g]?)
    ∧ ((Velocity.compute_stochastic som fit_offset fit_offset2 mode s).1.gamma[g]?
        = s.gamma[g]?)
    ∧ (∀ col, ((Velocity.compute_stochastic som fit_offset fit_offset2 mode s).1.residual2.getD [])[g]? = some col →
        ∀ x ∈ col, x = 0) := by
  have hnone : s.residual.isNone = false := by simp [hres]
  simp only [Velocity.compute_stochastic, hnone, Bool.false_eq_true, if_false, hsub, if_true]
  refine ⟨scatterMask_getElem?_of_false _ _ _ _ hg, scatterMask_getElem?_of_false _ _ _ _ hg,
    scatterMask_getElem?_of_false _ _ _ _ hg, ?_⟩
  intro col hcol x hx
  rw [Option.getD_some, scatterMask_getElem?_of_false _ _ _ _ hg] at hcol
  simp only [zerosLike, List.getElem?_map] at hcol
  cases hms : s.Ms[g]? with
  | none => rw [hms] at hcol; simp at hcol
  | some c =>
    rw [hms] at hcol
    simp only [Option.map_some'] at hcol
    obtain rfl : (c.map fun _ => (0 : ℚ)) = col := by injection hcol
    simp only [List.mem_map] at hx
    obtain ⟨a, _, rfl⟩ := hx
    rfl

theorem compute_stochastic_frame_witness :
    ((Velocity.compute_stochastic second_order_moments false false (some "stochastic") veloS).1.offset[1]?
        = veloS.offset[1]?)
    ∧ ((Velocity.compute_stochastic second_order_moments false false (some "stochastic") veloS).1.offset2[1]?
        = veloS.offset2[1]?)
    ∧ ((Velocity.compute_stochastic second_order_moments false false (some "stochastic") veloS).1.gamma[1]?
        = veloS.gamma[1]?)
    ∧ (∀ col, ((Velocity.compute_stochastic second_order_moments false false (some "stochastic") veloS).1.residual2.getD [])[1]? = some col →
        ∀ x ∈ col, x = 0) :=
  compute_stochastic_frame second_order_moments false false (some "stochastic") veloS
    [[0, 0], [0, 0]] 1 (by with_unfolding_all decide) (by with_unfolding_all decide)
    (by with_unfolding_all decide)

/-- Claim C4: in `compute_stochastic` the second-order residual of the active
genes is `(cov_us - 2*Ms*Mu) - gamma*(var_ss - 2*Ms²)` with `cov_us =
2*Mus + Mu` and `var_ss = 2*Mss - Ms`, where `fit_offset` adds the doubled
term `2*offset*Ms` and `fit_offset2` subtracts `offset2` — each flag toggling
its correction term independently, with the stated asymmetric signs.  Stated
entrywise for the case of a trivially-true mask, where every gene is active
(the proper-subset case scatters the same formula into the masked columns,
claim C2). -/
theorem stochastic_residual2_formula
    (som : AnnData → Mat × Mat) (fit_offset fit_offset2 : Bool) (mode : Option String)
    (s : Velocity) (r : Mat) (g i : ℕ) (m u vss vus gam off off2 : ℚ)
    (hres : s.residual = some r)
    (hmask : false ∉ s.velocity_genes)
    (hg : g < s.velocity_genes.length)
    (hm : entry? s.Ms g i = some m)
    (hu : entry? s.Mu g i = some u)
    (hss : entry? (som s.adata).1 g i = some vss)
    (hus : entry? (som s.adata).2 g i = some vus)
    (hgam : (Velocity.compute_stochastic som fit_offset fit_offset2 mode s).1.gamma[g]? = some gam)
    (hoff : (Velocity.compute_stochastic som fit_offset fit_offset2 mode s).1.offset[g]? = some off)
    (hoff2 : (Velocity.compute_stochastic som fit_offset fit_offset2 mode s).1.offset2[g]? = some off2) :
    entry? ((Velocity.compute_stochastic som fit_offset fit_offset2 mode s).1.residual2.getD []) g i
      = some ((((2*vus + u) - 2*(m*u)) - gam * ((2*vss - m) - 2*(m*m)))
        + (if fit_offset then 2*off*m else 0) - (if fit_offset2 then off2 else 0)) := by
  have hnone : s.residual.isNone = false := by simp [hres]
  have hsub : hasTwoDistinct s.velocity_genes = false := hasTwoDistinct_allTrue hmask
  cases fit_offset <;> cases fit_offset2 <;>
    (simp only [Velocity.compute_stochastic, hnone, Bool.false_eq_true, if_false, if_true,
       hsub] at hgam hoff hoff2 ⊢ ;
     simp only [Option.getD_some, entry?_mzip, entry?_gzip, applyMask_allTrue _ hmask hg,
       hgam, hoff, hoff2, hm, hu, hss, hus, Option.bind_some, Option.map_some',
       Option.some.injEq] ;
     simp only [Option.some_bind, Option.map_some', Option.some.injEq] ;
     try ring)

theorem stochastic_residual2_formula_witness :
    entry? ((Velocity.compute_stochastic second_order_moments true true (some "stochastic") veloT).1.residual2.getD []) 0 0
      = some ((((2*(2:ℚ) + 2) - 2*(1*2))
          - (((Velocity.compute_stochastic second_order_moments true true (some "stochastic") veloT).1.gamma[0]?).getD 0)
            * ((2*1 - 1) - 2*(1*1)))
        + (if true then
            2*(((Velocity.compute_stochastic second_order_moments true true (some "stochastic") veloT).1.offset[0]?).getD 0)*1
           else 0)
        - (if true then
            ((Velocity.compute_stochastic second_order_moments true true (some "stochastic") veloT).1.offset2[0]?).getD 0
           else 0)) :=
  stochastic_residual2_formula second_order_moments true true (some "stochastic") veloT
    (veloT.residual.getD []) 0 0 1 2 1 2
    (((Velocity.compute_stochastic second_order_moments true true (some "stochastic") veloT).1.gamma[0]?).getD 0)
    (((Velocity.compute_stochastic second_order_moments true true (some "stochastic") veloT).1.offset[0]?).getD 0)
    (((Velocity.compute_stochastic second_order_moments true true (some "stochastic") veloT).1.offset2[0]?).getD 0)
    (by with_unfolding_all decide) (by with_unfolding_all decide) (by with_unfolding_all decide)
    (by with_unfolding_all decide) (by with_unfolding_all decide) (by with_unfolding_all decide)
    (by with_unfolding_all decide) (by with_unfolding_all decide) (by with_unfolding_all decide)
    (by with_unfolding_all decide)

theorem prepData_obs (data : AnnData) (use_raw : Bool) :
    (prepData data use_raw).obs = data.obs := by
  unfold prepData moments AnnData.setLayer
  split <;> rfl

theorem string_append_right_cancel {a b c : String} (h : a ++ b = a ++ c) : b = c := by
  have hd : a.data ++ b.data = a.data ++ c.data := by
    have := congrArg String.data h
    simpa using this
  have h2 := List.append_cancel_left hd
  cases b; cases c
  exact congrArg String.mk h2

theorem hasTwoDistinctQ_replicate (n : ℕ) (c : ℚ) :
    hasTwoDistinctQ (List.replicate n c) = false := by
  cases n with
  | zero => rfl
  | succ n =>
    simp only [List.replicate_succ, hasTwoDistinctQ]
    simp [List.any_eq_true, List.mem_replicate]

theorem mem_writePar (k vkey nm : String) (p : List ℚ) (st : AnnData × List Event) :
    (Event.writeVar k ∈ (writePar vkey nm p st).2)
      ↔ (Event.writeVar k ∈ st.2 ∨ (k = vkey ++ nm ∧ hasTwoDistinctQ p = true)) := by
  unfold writePar
  split
  · rename_i h
    simp [List.mem_append, h]
  · rename_i h
    simp only [Bool.not_eq_true] at h
    simp [h]

theorem mem_writePars (k vkey : String) (v : Velocity) (a : AnnData) :
    Event.writeVar k ∈ (writePars vkey v a).2
      ↔ ((k = vkey ++ "_offset" ∧ hasTwoDistinctQ v.offset = true)
        ∨ (k = vkey ++ "_offset2" ∧ hasTwoDistinctQ v.offset2 = true)
        ∨ (k = vkey ++ "_beta" ∧ hasTwoDistinctQ v.beta = true)
        ∨ (k = vkey ++ "_gamma" ∧ hasTwoDistinctQ v.gamma = true)
        ∨ (k = vkey ++ "_r2" ∧ hasTwoDistinctQ v.r2 = true)
        ∨ (k = vkey ++ "_genes" ∧ hasTwoDistinctQ (v.velocity_genes.map boolToQ) = true)) := by
  unfold writePars
  simp only [mem_writePar, List.not_mem_nil, false_or]
  tauto

theorem writePars_events (vkey : String) (v : Velocity) (a : AnnData) :
    ∀ e ∈ (writePars vkey v a).2, ∃ k, e = Event.writeVar k := by
  have step : ∀ (nm : String) (p : List ℚ) (st : AnnData × List Event),
      (∀ e ∈ st.2, ∃ k, e = Event.writeVar k) →
      ∀ e ∈ (writePar vkey nm p st).2, ∃ k, e = Event.writeVar k := by
    intro nm p st hst e he
    unfold writePar at he
    split at he
    · rcases List.mem_append.mp he with h | h
      · exact hst e h
      · simp at h
        exact ⟨_, h⟩
    · exact hst e he
  unfold writePars
  refine step _ _ _ (step _ _ _ (step _ _ _ (step _ _ _ (step _ _ _ (step _ _ _ ?_)))))
  simp

theorem writesOnlyAfterStages_of_noStage (w : Event → Bool) (ys : List Event)
    (hy : ys.all (fun e => !e.isStage) = true) : writesOnlyAfterStages w ys = true := by
  induction ys with
  | nil => rfl
  | cons e rest ih =>
    simp only [List.all_cons, Bool.and_eq_true] at hy
    simp only [writesOnlyAfterStages, Bool.and_eq_true, Bool.or_eq_true]
    exact ⟨Or.inr hy.2, ih hy.2⟩

theorem writesOnlyAfterStages_append (w : Event → Bool) (xs ys : List Event)
    (hx : xs.all (fun e => !(w e)) = true)
    (hy : ys.all (fun e => !e.isStage) = true) :
    writesOnlyAfterStages w (xs ++ ys) = true := by
  induction xs with
  | nil => simpa using writesOnlyAfterStages_of_noStage w ys hy
  | cons e rest ih =>
    simp only [List.all_cons, Bool.and_eq_true] at hx
    simp only [List.cons_append, writesOnlyAfterStages, Bool.and_eq_true, Bool.or_eq_true]
    exact ⟨Or.inl hx.1, ih hx.2⟩

theorem compute_stochastic_ranDet (som : AnnData → Mat × Mat) (fo fo2 : Bool)
    (mode : Option String) (s : Velocity) (r : Mat) (h : s.residual = some r) :
    (Velocity.compute_stochastic som fo fo2 mode s).2 = false := by
  simp [Velocity.compute_stochastic, h]

theorem compute_stochastic_preserves (som : AnnData → Mat × Mat) (fo fo2 : Bool)
    (mode : Option String) (s : Velocity) (r : Mat) (h : s.residual = some r) :
    (Velocity.compute_stochastic som fo fo2 mode s).1.velocity_genes = s.velocity_genes
    ∧ (Velocity.compute_stochastic som fo fo2 mode s).1.r2 = s.r2
    ∧ (Velocity.compute_stochastic som fo fo2 mode s).1.beta = s.beta := by
  have hnone : s.residual.isNone = false := by simp [h]
  simp [Velocity.compute_stochastic, hnone]

theorem velocity_unpack (som : AnnData → Mat × Mat) (data : AnnData) (vkey : String)
    (mode : Option String) (fo fo2 fg : Bool) (groups : GroupsArg)
    (groupby : Option String) (sff : Option (List Bool)) (use_raw copy : Bool) :
    (velocity som data vkey mode fo fo2 fg groups groupby sff use_raw copy).trace
      = (velocityCore som data vkey mode fo fo2 fg groups groupby sff use_raw).trace
    ∧ (velocity som data vkey mode fo fo2 fg groups groupby sff use_raw copy).velo
      = (velocityCore som data vkey mode fo fo2 fg groups groupby sff use_raw).velo := by
  simp only [velocity]
  cases hres : (velocityCore som data vkey mode fo fo2 fg groups groupby sff use_raw).res <;>
    exact ⟨rfl, rfl⟩

theorem not_writeVar_prepEvents (k : String) (d : AnnData) (u : Bool) :
    Event.writeVar k ∉ prepEvents d u := by
  unfold prepEvents
  split <;> simp

theorem not_writeVar_ite_subsetVar (k : String) (b : Bool) :
    Event.writeVar k ∉ (if b = true then [Event.subsetVar] else ([] : List Event)) := by
  split <;> simp

theorem not_writeVar_ite_stageDet (k : String) (b : Bool) :
    Event.writeVar k ∉ (if b = true then [Event.stageDet] else ([] : List Event)) := by
  split <;> simp

theorem core_writeVar_iff (som : AnnData → Mat × Mat) (data : AnnData) (vkey : String)
    (mode : Option String) (fo fo2 fg : Bool) (groups : GroupsArg)
    (groupby : Option String) (sff : Option (List Bool)) (use_raw : Bool)
    (v : Velocity) (k : String)
    (hv : (velocityCore som data vkey mode fo fo2 fg groups groupby sff use_raw).velo = some v) :
    (Event.writeVar k ∈ (velocityCore som data vkey mode fo fo2 fg groups groupby sff use_raw).trace
      ↔ ((k = vkey ++ "_offset" ∧ hasTwoDistinctQ v.offset = true)
        ∨ (k = vkey ++ "_offset2" ∧ hasTwoDistinctQ v.offset2 = true)
        ∨ (k = vkey ++ "_beta" ∧ hasTwoDistinctQ v.beta = true)
        ∨ (k = vkey ++ "_gamma" ∧ hasTwoDistinctQ v.gamma = true)
        ∨ (k = vkey ++ "_r2" ∧ hasTwoDistinctQ v.r2 = true)
        ∨ (k = vkey ++ "_genes" ∧ hasTwoDistinctQ (v.velocity_genes.map boolToQ) = true))) := by
  simp only [velocityCore] at hv ⊢
  cases hgr : resolveGroups (prepData data use_raw).obs groups groupby with
  | error e =>
    rw [hgr] at hv
    simp at hv
  | ok gOpt =>
    rw [hgr] at hv
    by_cases hst : stochasticFlag mode = true
    · simp only [hst, if_true] at hv ⊢
      simp only [Option.some.injEq] at hv
      subst hv
      simp [List.mem_append, mem_writePars, not_writeVar_prepEvents,
        not_writeVar_ite_subsetVar, not_writeVar_ite_stageDet]
    · simp only [hst, Bool.false_eq_true, if_false] at hv ⊢
      simp only [Option.some.injEq] at hv
      subst hv
      simp [List.mem_append, mem_writePars, not_writeVar_prepEvents,
        not_writeVar_ite_subsetVar, not_writeVar_ite_stageDet]

theorem compute_stochastic_beta_of_residual (som : AnnData → Mat × Mat) (fo fo2 : Bool)
    (mode : Option String) (s : Velocity) (r : Mat) (h : s.residual = some r) :
    (Velocity.compute_stochastic som fo fo2 mode s).1.beta = s.beta :=
  (compute_stochastic_preserves som fo fo2 mode s r h).2.2

theorem core_velo_beta (som : AnnData → Mat × Mat) (data : AnnData) (vkey : String)
    (mode : Option String) (fo fo2 fg : Bool) (groups : GroupsArg)
    (groupby : Option String) (sff : Option (List Bool)) (use_raw : Bool)
    (v : Velocity)
    (hv : (velocityCore som data vkey mode fo fo2 fg groups groupby sff use_raw).velo = some v) :
    ∃ n, v.beta = List.replicate n 1 := by
  simp only [velocityCore] at hv
  cases hgr : resolveGroups (prepData data use_raw).obs groups groupby with
  | error e =>
    rw [hgr] at hv
    simp at hv
  | ok gOpt =>
    rw [hgr] at hv
    by_cases hst : stochasticFlag mode = true
    · simp only [hst, if_true] at hv
      by_cases hdf : (fg && hasTwoDistinct (detVelo (prepData data use_raw) gOpt sff use_raw fo).velocity_genes) = true
      · simp only [hdf, if_true] at hv
        simp only [Option.some.injEq] at hv
        subst hv
        rw [compute_stochastic_beta_of_residual som fo fo2 mode _ _ rfl]
        exact ⟨_, rfl⟩
      · simp only [hdf, Bool.false_eq_true, if_false] at hv
        simp only [Option.some.injEq] at hv
        subst hv
        rw [compute_stochastic_beta_of_residual som fo fo2 mode _ _ rfl]
        exact ⟨_, rfl⟩
    · simp only [hst, Bool.false_eq_true, if_false] at hv
      simp only [Option.some.injEq] at hv
      subst hv
      exact ⟨_, rfl⟩

/-- Claim C7: a per-gene parameter column `<vkey><parname>` is written by the
driver (a `writeVar` event occurs) exactly when the corresponding parameter
vector of the final estimator holds more than one distinct value; `beta`,
which is constantly `1.0`, is never written. -/
theorem par_columns_written_iff (som : AnnData → Mat × Mat) (data : AnnData) (vkey : String)
    (mode : Option String) (fo fo2 fg : Bool) (groups : GroupsArg)
    (groupby : Option String) (sff : Option (List Bool)) (use_raw copy : Bool)
    (v : Velocity) (k : String)
    (hv : (velocity som data vkey mode fo fo2 fg groups groupby sff use_raw copy).velo = some v) :
    (Event.writeVar k ∈ (velocity som data vkey mode fo fo2 fg groups groupby sff use_raw copy).trace
      ↔ ((k = vkey ++ "_offset" ∧ hasTwoDistinctQ v.offset = true)
        ∨ (k = vkey ++ "_offset2" ∧ hasTwoDistinctQ v.offset2 = true)
        ∨ (k = vkey ++ "_beta" ∧ hasTwoDistinctQ v.beta = true)
        ∨ (k = vkey ++ "_gamma" ∧ hasTwoDistinctQ v.gamma = true)
        ∨ (k = vkey ++ "_r2" ∧ hasTwoDistinctQ v.r2 = true)
        ∨ (k = vkey ++ "_genes" ∧ hasTwoDistinctQ (v.velocity_genes.map boolToQ) = true)))
    ∧ Event.writeVar (vkey ++ "_beta")
        ∉ (velocity som data vkey mode fo fo2 fg groups groupby sff use_raw copy).trace := by
  obtain ⟨htr, hvl⟩ :=
    velocity_unpack som data vkey mode fo fo2 fg groups groupby sff use_raw copy
  rw [hvl] at hv
  rw [htr]
  have hbeta := core_velo_beta som data vkey mode fo fo2 fg groups groupby sff use_raw v hv
  refine ⟨core_writeVar_iff som data vkey mode fo fo2 fg groups groupby sff use_raw v k hv, ?_⟩
  intro hm
  have hcl := (core_writeVar_iff som data vkey mode fo fo2 fg groups groupby sff use_raw v
    (vkey ++ "_beta") hv).mp hm
  obtain ⟨n, hn⟩ := hbeta
  rcases hcl with ⟨hk, _⟩ | ⟨hk, _⟩ | ⟨hk, hb⟩ | ⟨hk, _⟩ | ⟨hk, _⟩ | ⟨hk, _⟩
  · exact absurd (string_append_right_cancel hk) (by decide)
  · exact absurd (string_append_right_cancel hk) (by decide)
  · rw [hn, hasTwoDistinctQ_replicate] at hb
    exact absurd hb (by simp)
  · exact absurd (string_append_right_cancel hk) (by decide)
  · exact absurd (string_append_right_cancel hk) (by decide)
  · exact absurd (string_append_right_cancel hk) (by decide)

theorem par_columns_written_iff_witness :
    (Event.writeVar "velocity_gamma"
        ∈ (velocity second_order_moments dataA "velocity" (some "stochastic") false false false .noneA none none false false).trace
      ↔ (("velocity_gamma" = "velocity" ++ "_offset"
            ∧ hasTwoDistinctQ (((velocity second_order_moments dataA "velocity" (some "stochastic") false false false .noneA none none false false).velo.getD veloS).offset) = true)
        ∨ ("velocity_gamma" = "velocity" ++ "_offset2"
            ∧ hasTwoDistinctQ (((velocity second_order_moments dataA "velocity" (some "stochastic") false false false .noneA none none false false).velo.getD veloS).offset2) = true)
        ∨ ("velocity_gamma" = "velocity" ++ "_beta"
            ∧ hasTwoDistinctQ (((velocity second_order_moments dataA "velocity" (some "stochastic") false false false .noneA none none false false).velo.getD veloS).beta) = true)
        ∨ ("velocity_gamma" = "velocity" ++ "_gamma"
            ∧ hasTwoDistinctQ (((velocity second_order_moments dataA "velocity" (some "stochastic") false false false .noneA none none false false).velo.getD veloS).gamma) = true)
        ∨ ("velocity_gamma" = "velocity" ++ "_r2"
            ∧ hasTwoDistinctQ (((velocity second_order_moments dataA "velocity" (some "stochastic") false false false .noneA none none false false).velo.getD veloS).r2) = true)
        ∨ ("velocity_gamma" = "velocity" ++ "_genes"
            ∧ hasTwoDistinctQ ((((velocity second_order_moments dataA "velocity" (some "stochastic") false false false .noneA none none false false).velo.getD veloS).velocity_genes).map boolToQ) = true)))
    ∧ Event.writeVar ("velocity" ++ "_beta")
        ∉ (velocity second_order_moments dataA "velocity" (some "stochastic") false false false .noneA none none false false).trace :=
  par_columns_written_iff second_order_moments dataA "velocity" (some "stochastic")
    false false false .noneA none none false false
    ((velocity second_order_moments dataA "velocity" (some "stochastic") false false false .noneA none none false false).velo.getD veloS)
    "velocity_gamma" (by with_unfolding_all decide)

theorem prepEvents_noStage (d : AnnData) (u : Bool) :
    (prepEvents d u).all (fun e => !e.isStage) = true := by
  unfold prepEvents
  split <;> rfl

theorem prepEvents_noResult (d : AnnData) (u : Bool) :
    (prepEvents d u).all (fun e => !e.isResultWrite) = true := by
  unfold prepEvents
  split <;> rfl

theorem writePars_noStage (vkey : String) (v : Velocity) (a : AnnData) :
    (writePars vkey v a).2.all (fun e => !e.isStage) = true := by
  rw [List.all_eq_true]
  intro e he
  obtain ⟨k, rfl⟩ := writePars_events vkey v a e he
  rfl

theorem all_noStage_ite_subsetVar (b : Bool) :
    (if b = true then [Event.subsetVar] else ([] : List Event)).all
      (fun e => !e.isStage) = true := by
  split <;> rfl

theorem all_noResult_ite_subsetVar (b : Bool) :
    (if b = true then [Event.subsetVar] else ([] : List Event)).all
      (fun e => !e.isResultWrite) = true := by
  split <;> rfl

theorem all_noResult_ite_stageDet (b : Bool) :
    (if b = true then [Event.stageDet] else ([] : List Event)).all
      (fun e => !e.isResultWrite) = true := by
  split <;> rfl

theorem all_noResult_stageDet_singleton :
    ([Event.stageDet] : List Event).all (fun e => !e.isResultWrite) = true := rfl

theorem all_noResult_stageStoch_singleton :
    ([Event.stageStoch] : List Event).all (fun e => !e.isResultWrite) = true := rfl

theorem wOAS_shape (w : Event → Bool) (a b c d : List Event)
    (ha : a.all (fun e => !(w e)) = true)
    (hb : b.all (fun e => !e.isStage) = true)
    (hc : c.all (fun e => !e.isStage) = true)
    (hd : d.all (fun e => !e.isStage) = true) :
    writesOnlyAfterStages w (a ++ b ++ c ++ d) = true := by
  have hassoc : a ++ b ++ c ++ d = a ++ (b ++ (c ++ d)) := by simp [List.append_assoc]
  rw [hassoc]
  exact writesOnlyAfterStages_append w a _ ha (by simp [List.all_append, hb, hc, hd])

theorem core_result_writes_after_stages (som : AnnData → Mat × Mat) (data : AnnData)
    (vkey : String) (mode : Option String) (fo fo2 fg : Bool) (groups : GroupsArg)
    (groupby : Option String) (sff : Option (List Bool)) (use_raw : Bool) :
    writesOnlyAfterStages Event.isResultWrite
      (velocityCore som data vkey mode fo fo2 fg groups groupby sff use_raw).trace = true := by
  simp only [velocityCore]
  cases hgr : resolveGroups (prepData data use_raw).obs groups groupby with
  | error e =>
    exact writesOnlyAfterStages_of_noStage _ _ (prepEvents_noStage data use_raw)
  | ok gOpt =>
    by_cases hst : stochasticFlag mode = true
    · simp only [hst, if_true]
      refine wOAS_shape _ _ _ _ _ ?_ rfl (writePars_noStage _ _ _) (all_noStage_ite_subsetVar _)
      simp only [List.all_append, prepEvents_noResult, all_noResult_ite_subsetVar,
        all_noResult_ite_stageDet, all_noResult_stageDet_singleton,
        all_noResult_stageStoch_singleton, Bool.and_true, Bool.true_and, Bool.and_self]
    · simp only [hst, Bool.false_eq_true, if_false]
      refine wOAS_shape _ _ _ _ _ ?_ rfl (writePars_noStage _ _ _) (all_noStage_ite_subsetVar _)
      simp only [List.all_append, prepEvents_noResult, all_noResult_ite_subsetVar,
        all_noResult_ite_stageDet, all_noResult_stageDet_singleton,
        all_noResult_stageStoch_singleton, Bool.and_true, Bool.true_and, Bool.and_self]

/-- Claim C1, amended: the result writes of a call (the residual layers and
the parameter annotation columns) happen only after all fitting stages of the
call; the claim as stated is refuted by `dataset_writes_before_stages_cex`. -/
theorem result_writes_after_stages (som : AnnData → Mat × Mat) (data : AnnData)
    (vkey : String) (mode : Option String) (fo fo2 fg : Bool) (groups : GroupsArg)
    (groupby : Option String) (sff : Option (List Bool)) (use_raw copy : Bool) :
    writesOnlyAfterStages Event.isResultWrite
      (velocity som data vkey mode fo fo2 fg groups groupby sff use_raw copy).trace = true := by
  rw [(velocity_unpack som data vkey mode fo fo2 fg groups groupby sff use_raw copy).1]
  exact core_result_writes_after_stages som data vkey mode fo fo2 fg groups groupby sff use_raw

/-- Claim C1 as stated is false on the code: in a stochastic `filter_genes`
run on `dataA`, dataset writes (the `moments` layer side effect before any
fitting, and the in-place gene narrowing before the stochastic stage) precede
fitting-stage completions. -/
theorem dataset_writes_before_stages_cex :
    writesOnlyAfterStages Event.isDataWrite
      (velocity second_order_moments dataA "velocity" (some "stochastic") false false true
        .noneA none none false false).trace = false := by
  with_unfolding_all decide

/-- Claim C8: a `copy=True` call leaves the caller's dataset observably
unchanged and returns a result dataset whose content is exactly what the
in-place (`copy=False`) call would leave behind; a `copy=False` call returns
`None` (and its effects are the in-place post-state). -/
theorem copy_semantics (som : AnnData → Mat × Mat) (data : AnnData) (vkey : String)
    (mode : Option String) (fo fo2 fg : Bool) (groups : GroupsArg)
    (groupby : Option String) (sff : Option (List Bool)) (use_raw : Bool)
    (hok : (velocity som data vkey mode fo fo2 fg groups groupby sff use_raw true).res.isOk = true) :
    (velocity som data vkey mode fo fo2 fg groups groupby sff use_raw true).res.post = data
    ∧ (velocity som data vkey mode fo fo2 fg groups groupby sff use_raw true).res.retOpt
        = some ((velocity som data vkey mode fo fo2 fg groups groupby sff use_raw false).res.post)
    ∧ (velocity som data vkey mode fo fo2 fg groups groupby sff use_raw false).res.retOpt = none := by
  simp only [velocity] at hok ⊢
  cases hres : (velocityCore som data vkey mode fo fo2 fg groups groupby sff use_raw).res with
  | error st => rw [hres] at hok; simp [VResult.isOk] at hok
  | ok st => simp [hres, VResult.post, VResult.retOpt]

theorem copy_semantics_witness :
    (velocity second_order_moments dataA "velocity" (some "stochastic") false false true .noneA none none false true).res.post = dataA
    ∧ (velocity second_order_moments dataA "velocity" (some "stochastic") false false true .noneA none none false true).res.retOpt
        = some ((velocity second_order_moments dataA "velocity" (some "stochastic") false false true .noneA none none false false).res.post)
    ∧ (velocity second_order_moments dataA "velocity" (some "stochastic") false false true .noneA none none false false).res.retOpt = none :=
  copy_semantics second_order_moments dataA "velocity" (some "stochastic") false false true
    .noneA none none false (by with_unfolding_all decide)

/-- Claim C5: when `groups` is supplied as a label list and no grouping
annotation can be determined (the explicit `groupby` is not an `obs` column
and neither `clusters` nor `louvain` is present), the call aborts with the
configuration error (the source's `ValueError('groupby attribute not
valid.')`) and no fitting stage runs. -/
theorem groups_unresolvable_raises (som : AnnData → Mat × Mat) (data : AnnData)
    (vkey : String) (mode : Option String) (fo fo2 fg : Bool) (ls : List String)
    (groupby : Option String) (sff : Option (List Bool)) (use_raw copy : Bool)
    (h1 : data.obs.any (fun p => p.1 == "clusters") = false)
    (h2 : data.obs.any (fun p => p.1 == "louvain") = false)
    (h3 : ∀ g, groupby = some g → data.obs.any (fun p => p.1 == g) = false) :
    ((velocity som data vkey mode fo fo2 fg (.labels ls) groupby sff use_raw copy).res.isOk = false)
    ∧ (velocity som data vkey mode fo fo2 fg (.labels ls) groupby sff use_raw copy).trace.all
        (fun e => !e.isStage) = true := by
  have hres : resolveGroups data.obs (.labels ls) groupby = .error () := by
    unfold resolveGroups
    simp only [h1, h2, Bool.false_eq_true, if_false]
    cases groupby with
    | none => rfl
    | some g => simp only [h3 g rfl, Bool.false_eq_true, if_false]
  simp only [velocity, velocityCore, prepData_obs, hres]
  refine ⟨by cases copy <;> rfl, ?_⟩
  show (prepEvents data use_raw).all _ = true
  unfold prepEvents
  split <;> rfl

theorem groups_unresolvable_raises_witness :
    ((velocity second_order_moments dataA "velocity" (some "stochastic") false false false
        (.labels ["a", "b"]) (some "grouping") none false false).res.isOk = false)
    ∧ (velocity second_order_moments dataA "velocity" (some "stochastic") false false false
        (.labels ["a", "b"]) (some "grouping") none false false).trace.all
        (fun e => !e.isStage) = true :=
  groups_unresolvable_raises second_order_moments dataA "velocity" (some "stochastic")
    false false false ["a", "b"] (some "grouping") none false false
    (by decide) (by decide) (by intro g hg; injection hg with hg; subst hg; decide)

theorem lookup_map_replace {β : Type} (ps : List (String × β)) (k q : String) (v : β)
    (h : (k == q) = false) :
    List.lookup k (ps.map (fun p => if (p.1 == q) = true then (q, v) else p))
      = List.lookup k ps := by
  induction ps with
  | nil => rfl
  | cons p ps ih =>
    simp only [List.map_cons]
    by_cases hp : (p.1 == q) = true
    · have hp2 : p.1 = q := by simpa using hp
      rw [if_pos hp]
      simp only [List.lookup, hp2, h]
      exact ih
    · rw [if_neg hp]
      simp only [List.lookup]
      cases hk : (k == p.1) with
      | true => rfl
      | false => exact ih

theorem lookup_append_single {β : Type} (ps : List (String × β)) (k q : String) (v : β)
    (h : (k == q) = false) :
    List.lookup k (ps ++ [(q, v)]) = List.lookup k ps := by
  induction ps with
  | nil => simp [List.lookup, h]
  | cons p ps ih =>
    simp only [List.cons_append, List.lookup]
    cases hk : (k == p.1) with
    | true => rfl
    | false => exact ih

theorem lookup_upsert_ne {β : Type} (l : List (String × β)) (k q : String) (v : β)
    (h : k ≠ q) : (upsert q v l).lookup k = l.lookup k := by
  have hb : (k == q) = false := by simpa using h
  unfold upsert
  split
  · exact lookup_map_replace l k q v hb
  · exact lookup_append_single l k q v hb

theorem lookup_mapVals {β γ : Type} (l : List (String × β)) (f : β → γ) (k : String) :
    ((l.map (fun p => (p.1, f p.2))).lookup k) = (l.lookup k).map f := by
  induction l with
  | nil => rfl
  | cons p ps ih =>
    simp only [List.map_cons, List.lookup]
    cases hk : (k == p.1) with
    | true => rfl
    | false => exact ih

theorem variance_key_ne_Ms (v : String) : ("variance_" ++ v) ≠ "Ms" := by
  intro h
  have hl := congrArg String.length h
  rw [String.length_append] at hl
  have h9 : ("variance_" : String).length = 9 := rfl
  have h2 : ("Ms" : String).length = 2 := rfl
  omega

theorem variance_key_ne_Mu (v : String) : ("variance_" ++ v) ≠ "Mu" := by
  intro h
  have hl := congrArg String.length h
  rw [String.length_append] at hl
  have h9 : ("variance_" : String).length = 9 := rfl
  have h2 : ("Mu" : String).length = 2 := rfl
  omega

theorem variance_key_ne_vkey (v : String) : ("variance_" ++ v) ≠ v := by
  intro h
  have hl := congrArg String.length h
  rw [String.length_append] at hl
  have h9 : ("variance_" : String).length = 9 := rfl
  omega

theorem setLayer_lookup_ne (a : AnnData) (k q : String) (m : Mat) (h : k ≠ q) :
    ((AnnData.setLayer q m a).layers.lookup k) = a.layers.lookup k :=
  lookup_upsert_ne a.layers k q m h

theorem writePar_layers (vkey nm : String) (p : List ℚ) (st : AnnData × List Event) :
    (writePar vkey nm p st).1.layers = st.1.layers := by
  unfold writePar AnnData.setVar
  split <;> rfl

theorem writePars_layers (vkey : String) (v : Velocity) (a : AnnData) :
    (writePars vkey v a).1.layers = a.layers := by
  unfold writePars
  simp only [writePar_layers]

theorem prepData_lookup_variance (d : AnnData) (u : Bool) (vk : String) :
    (prepData d u).layers.lookup ("variance_" ++ vk)
      = d.layers.lookup ("variance_" ++ vk) := by
  unfold prepData moments
  split
  · rw [setLayer_lookup_ne _ _ _ _ (variance_key_ne_Mu vk),
      setLayer_lookup_ne _ _ _ _ (variance_key_ne_Ms vk)]
  · rfl

theorem subsetVars_lookup_none (idx : List Bool) (a : AnnData) (k : String)
    (h : a.layers.lookup k = none) :
    (AnnData.subsetVars idx a).layers.lookup k = none := by
  show ((a.layers.map (fun p => (p.1, applyMask idx p.2))).lookup k) = none
  rw [lookup_mapVals, h]
  rfl

theorem ensureLayer_lookup_ne (a : AnnData) (k q : String) (h : k ≠ q) :
    ((AnnData.ensureLayer q a).layers.lookup k) = a.layers.lookup k := by
  unfold AnnData.ensureLayer
  split
  · rfl
  · exact setLayer_lookup_ne _ _ _ _ h

theorem writeRows_lookup_ne (q : String) (m : List Bool) (newM : Mat) (a : AnnData)
    (k : String) (h : k ≠ q) :
    ((AnnData.writeRows q m newM a).layers.lookup k) = a.layers.lookup k :=
  setLayer_lookup_ne _ _ _ _ h

theorem mem_prepEvents {e : Event} {d : AnnData} {u : Bool} (h : e ∈ prepEvents d u) :
    e = Event.writeMoments := by
  unfold prepEvents at h
  split at h <;> simp_all

theorem mem_ite_subsetVar {e : Event} {b : Bool}
    (h : e ∈ (if b = true then [Event.subsetVar] else ([] : List Event))) :
    e = Event.subsetVar := by
  split at h <;> simp_all

theorem core_det_mode (som : AnnData → Mat × Mat) (data : AnnData) (vkey : String)
    (mode : Option String) (fo fo2 fg : Bool) (groups : GroupsArg)
    (groupby : Option String) (sff : Option (List Bool)) (use_raw : Bool)
    (hmode : stochasticFlag mode = false)
    (habs : data.layers.lookup ("variance_" ++ vkey) = none) :
    Event.stageStoch ∉ (velocityCore som data vkey mode fo fo2 fg groups groupby sff use_raw).trace
    ∧ (∀ key, Event.resultLayer key ∈ (velocityCore som data vkey mode fo fo2 fg groups groupby sff use_raw).trace → key = vkey)
    ∧ (∀ st, (velocityCore som data vkey mode fo fo2 fg groups groupby sff use_raw).res = Except.ok st →
        st.layers.lookup ("variance_" ++ vkey) = none)
    ∧ (∀ st, (velocityCore som data vkey mode fo fo2 fg groups groupby sff use_raw).res = Except.error st →
        st.layers.lookup ("variance_" ++ vkey) = none) := by
  simp only [velocityCore]
  cases hgr : resolveGroups (prepData data use_raw).obs groups groupby with
  | error e =>
    refine ⟨fun h => by simpa using mem_prepEvents h, fun key h => by simpa using mem_prepEvents h,
      fun st h => absurd h (by simp), fun st h => ?_⟩
    have hst : prepData data use_raw = st := by injection h
    subst hst
    rw [prepData_lookup_variance]
    exact habs
  | ok gOpt =>
    simp only [hmode, Bool.false_eq_true, if_false]
    refine ⟨?_, ?_, ?_, fun st h => absurd h (by simp)⟩
    · intro h
      simp only [List.mem_append] at h
      rcases h with (((h | h) | h) | h) | h
      · simpa using mem_prepEvents h
      · simp at h
      · simp at h
      · obtain ⟨k, hk⟩ := writePars_events vkey _ _ _ h
        simp at hk
      · simpa using mem_ite_subsetVar h
    · intro key h
      simp only [List.mem_append] at h
      rcases h with (((h | h) | h) | h) | h
      · simpa using mem_prepEvents h
      · simp at h
      · simp at h
        exact h
      · obtain ⟨k, hk⟩ := writePars_events vkey _ _ _ h
        simp at hk
      · simpa using mem_ite_subsetVar h
    · intro st h
      obtain rfl := Except.ok.inj h
      have hbase : ∀ a3 : AnnData,
          a3.layers.lookup ("variance_" ++ vkey) = none →
          (writePars vkey (detVelo (prepData data use_raw) gOpt sff use_raw fo) a3).1.layers.lookup ("variance_" ++ vkey) = none := by
        intro a3 h3
        rw [writePars_layers]
        exact h3
      have h3 : ∀ a3 : AnnData,
          a3.layers.lookup ("variance_" ++ vkey) = none →
          (if (fg && hasTwoDistinct (detVelo (prepData data use_raw) gOpt sff use_raw fo).velocity_genes) = true then
              AnnData.subsetVars (detVelo (prepData data use_raw) gOpt sff use_raw fo).velocity_genes a3
            else a3).layers.lookup ("variance_" ++ vkey) = none := by
        intro a3 h3
        split
        · exact subsetVars_lookup_none _ _ _ h3
        · exact h3
      apply h3
      apply hbase
      cases gOpt with
      | none =>
        rw [setLayer_lookup_ne _ _ _ _ (variance_key_ne_vkey vkey), prepData_lookup_variance]
        exact habs
      | some m =>
        rw [writeRows_lookup_ne _ _ _ _ _ (variance_key_ne_vkey vkey),
          ensureLayer_lookup_ne _ _ _ (variance_key_ne_vkey vkey), prepData_lookup_variance]
        exact habs

/-- Claim C6, amended. -/
theorem deterministic_mode_layer_writes (som : AnnData → Mat × Mat) (data : AnnData)
    (vkey : String) (mode : Option String) (fo fo2 fg : Bool) (groups : GroupsArg)
    (groupby : Option String) (sff : Option (List Bool)) (use_raw copy : Bool)
    (hmode : stochasticFlag mode = false)
    (habs : data.layers.lookup ("variance_" ++ vkey) = none) :
    Event.stageStoch ∉ (velocity som data vkey mode fo fo2 fg groups groupby sff use_raw copy).trace
    ∧ (∀ key, Event.resultLayer key ∈ (velocity som data vkey mode fo fo2 fg groups groupby sff use_raw copy).trace → key = vkey)
    ∧ (velocity som data vkey mode fo fo2 fg groups groupby sff use_raw copy).res.post.layers.lookup ("variance_" ++ vkey) = none := by
  obtain ⟨htr, hvl⟩ := velocity_unpack som data vkey mode fo fo2 fg groups groupby sff use_raw copy
  have hcore := core_det_mode som data vkey mode fo fo2 fg groups groupby sff use_raw hmode habs
  rw [htr]
  refine ⟨hcore.1, hcore.2.1, ?_⟩
  simp only [velocity]
  cases hres : (velocityCore som data vkey mode fo fo2 fg groups groupby sff use_raw).res with
  | error st =>
    cases copy with
    | true => simpa [VResult.post] using habs
    | false => simpa [VResult.post] using hcore.2.2.2 st hres
  | ok st =>
    cases copy with
    | true => simpa [VResult.post] using habs
    | false => simpa [VResult.post] using hcore.2.2.1 st hres

theorem deterministic_mode_layer_writes_witness :
    Event.stageStoch ∉ (velocity second_order_moments dataA "velocity" none false false true .noneA none none false false).trace
    ∧ (∀ key, Event.resultLayer key ∈ (velocity second_order_moments dataA "velocity" none false false true .noneA none none false false).trace → key = "velocity")
    ∧ (velocity second_order_moments dataA "velocity" none false false true .noneA none none false false).res.post.layers.lookup ("variance_" ++ "velocity") = none :=
  deterministic_mode_layer_writes second_order_moments dataA "velocity" none false false true
    .noneA none none false false (by decide) (by decide)

/-- Claim C6 as stated is false on the code: with `filter_genes` and a
pre-existing `variance_velocity` layer, a deterministic-only call still
modifies that layer, because the end-of-call gene narrowing subsets every
layer of the dataset. -/
theorem variance_layer_narrowed_cex :
    ((velocity second_order_moments dataB "velocity" none false false true .noneA none none false false).res.post.layers.lookup "variance_velocity")
      ≠ dataB.layers.lookup "variance_velocity" := by
  with_unfolding_all decide

theorem false_not_mem_replicate_true (n : ℕ) : false ∉ List.replicate n true := by
  simp [List.mem_replicate]

theorem prepEvents_countP (d : AnnData) (u : Bool) (p : Event → Bool)
    (h : p Event.writeMoments = false) : (prepEvents d u).countP p = 0 := by
  unfold prepEvents
  split <;> simp [List.countP_cons, h]

theorem writePars_countP (vkey : String) (v : Velocity) (a : AnnData) (p : Event → Bool)
    (h : ∀ k, p (Event.writeVar k) = false) : (writePars vkey v a).2.countP p = 0 := by
  rw [List.countP_eq_zero]
  intro e he
  obtain ⟨k, rfl⟩ := writePars_events vkey v a e he
  simp [h k]

theorem writePar_var_skip (vkey nm : String) (p : List ℚ) (st : AnnData × List Event)
    (h : hasTwoDistinctQ p = false) : (writePar vkey nm p st).1 = st.1 := by
  unfold writePar
  rw [h]
  simp

theorem writePar_var_lookup_ne (vkey nm k : String) (p : List ℚ) (st : AnnData × List Event)
    (h : k ≠ vkey ++ nm) :
    (writePar vkey nm p st).1.var.lookup k = st.1.var.lookup k := by
  unfold writePar
  split
  · exact lookup_upsert_ne _ _ _ _ h
  · rfl

theorem ne_append_of_suffix_ne {v a b : String} (h : a ≠ b) : v ++ a ≠ v ++ b :=
  fun hc => absurd (string_append_right_cancel hc) h

theorem writePars_var_lookup_r2 (vkey : String) (v : Velocity) (a : AnnData)
    (h : hasTwoDistinctQ v.r2 = false) :
    (writePars vkey v a).1.var.lookup (vkey ++ "_r2") = a.var.lookup (vkey ++ "_r2") := by
  unfold writePars
  rw [writePar_var_lookup_ne _ _ _ _ _ (ne_append_of_suffix_ne (by decide)),
    writePar_var_skip _ _ _ _ h,
    writePar_var_lookup_ne _ _ _ _ _ (ne_append_of_suffix_ne (by decide)),
    writePar_var_lookup_ne _ _ _ _ _ (ne_append_of_suffix_ne (by decide)),
    writePar_var_lookup_ne _ _ _ _ _ (ne_append_of_suffix_ne (by decide)),
    writePar_var_lookup_ne _ _ _ _ _ (ne_append_of_suffix_ne (by decide))]

theorem writePars_var_lookup_genes (vkey : String) (v : Velocity) (a : AnnData)
    (h : hasTwoDistinctQ (v.velocity_genes.map boolToQ) = false) :
    (writePars vkey v a).1.var.lookup (vkey ++ "_genes") = a.var.lookup (vkey ++ "_genes") := by
  unfold writePars
  rw [writePar_var_skip _ _ _ _ h,
    writePar_var_lookup_ne _ _ _ _ _ (ne_append_of_suffix_ne (by decide)),
    writePar_var_lookup_ne _ _ _ _ _ (ne_append_of_suffix_ne (by decide)),
    writePar_var_lookup_ne _ _ _ _ _ (ne_append_of_suffix_ne (by decide)),
    writePar_var_lookup_ne _ _ _ _ _ (ne_append_of_suffix_ne (by decide)),
    writePar_var_lookup_ne _ _ _ _ _ (ne_append_of_suffix_ne (by decide))]

theorem setLayer_var (k : String) (m : Mat) (a : AnnData) :
    (AnnData.setLayer k m a).var = a.var := rfl

theorem prepData_var (d : AnnData) (u : Bool) : (prepData d u).var = d.var := by
  unfold prepData moments AnnData.setLayer
  split <;> rfl

theorem ensureLayer_var (k : String) (a : AnnData) :
    (AnnData.ensureLayer k a).var = a.var := by
  unfold AnnData.ensureLayer
  split <;> rfl

theorem writeRows_var (k : String) (m : List Bool) (newM : Mat) (a : AnnData) :
    (AnnData.writeRows k m newM a).var = a.var := rfl

theorem subsetVars_var_lookup_none (idx : List Bool) (a : AnnData) (k : String)
    (h : a.var.lookup k = none) :
    (AnnData.subsetVars idx a).var.lookup k = none := by
  show ((a.var.map (fun p => (p.1, applyMask idx p.2))).lookup k) = none
  rw [lookup_mapVals, h]
  rfl

theorem init_velocity_genes (a : AnnData) (ms mu : Option Mat) (s : Option (List Bool))
    (r : Option Mat) (u : Bool) :
    (Velocity.init a ms mu s r u).velocity_genes
      = List.replicate (Velocity.init a ms mu s r u).Ms.length true := rfl

theorem prepEvents_countP_stageDet (d : AnnData) (u : Bool) :
    (prepEvents d u).countP (fun e => e == Event.stageDet) = 0 :=
  prepEvents_countP d u _ rfl

theorem prepEvents_countP_subsetVar (d : AnnData) (u : Bool) :
    (prepEvents d u).countP (fun e => e == Event.subsetVar) = 0 :=
  prepEvents_countP d u _ rfl

theorem writePars_countP_stageDet (vkey : String) (v : Velocity) (a : AnnData) :
    (writePars vkey v a).2.countP (fun e => e == Event.stageDet) = 0 :=
  writePars_countP vkey v a _ (fun k => rfl)

theorem writePars_countP_subsetVar (vkey : String) (v : Velocity) (a : AnnData) :
    (writePars vkey v a).2.countP (fun e => e == Event.subsetVar) = 0 :=
  writePars_countP vkey v a _ (fun k => rfl)

theorem core_filter_rebuild (som : AnnData → Mat × Mat) (data : AnnData) (vkey : String)
    (mode : Option String) (fo fo2 : Bool) (groups : GroupsArg) (groupby : Option String)
    (sff : Option (List Bool)) (use_raw : Bool) (gOpt : Option (List Bool))
    (hst : stochasticFlag mode = true)
    (hgr : resolveGroups (prepData data use_raw).obs groups groupby = Except.ok gOpt)
    (hmask : hasTwoDistinct (detVelo (prepData data use_raw) gOpt sff use_raw fo).velocity_genes = true)
    (hr2 : data.var.lookup (vkey ++ "_r2") = none)
    (hgenes : data.var.lookup (vkey ++ "_genes") = none) :
    (velocityCore som data vkey mode fo fo2 true groups groupby sff use_raw).trace.countP
        (fun e => e == Event.stageDet) = 1
    ∧ (velocityCore som data vkey mode fo fo2 true groups groupby sff use_raw).trace.countP
        (fun e => e == Event.subsetVar) = 1
    ∧ (∀ v, (velocityCore som data vkey mode fo fo2 true groups groupby sff use_raw).velo = some v →
        ∃ n, v.r2 = List.replicate n 0 ∧ v.velocity_genes = List.replicate n true)
    ∧ (∀ st, (velocityCore som data vkey mode fo fo2 true groups groupby sff use_raw).res = Except.ok st →
        st.var.lookup (vkey ++ "_r2") = none ∧ st.var.lookup (vkey ++ "_genes") = none) := by
  have hpres := compute_stochastic_preserves som fo fo2 mode
    (Velocity.init
      (fitView
        (AnnData.subsetVars (detVelo (prepData data use_raw) gOpt sff use_raw fo).velocity_genes
          (prepData data use_raw)) gOpt)
      none none sff
      (some (applyMask (detVelo (prepData data use_raw) gOpt sff use_raw fo).velocity_genes
        ((detVelo (prepData data use_raw) gOpt sff use_raw fo).residual.getD []))) false)
    (applyMask (detVelo (prepData data use_raw) gOpt sff use_raw fo).velocity_genes
      ((detVelo (prepData data use_raw) gOpt sff use_raw fo).residual.getD [])) rfl
  have hran := compute_stochastic_ranDet som fo fo2 mode
    (Velocity.init
      (fitView
        (AnnData.subsetVars (detVelo (prepData data use_raw) gOpt sff use_raw fo).velocity_genes
          (prepData data use_raw)) gOpt)
      none none sff
      (some (applyMask (detVelo (prepData data use_raw) gOpt sff use_raw fo).velocity_genes
        ((detVelo (prepData data use_raw) gOpt sff use_raw fo).residual.getD []))) false)
    (applyMask (detVelo (prepData data use_raw) gOpt sff use_raw fo).velocity_genes
      ((detVelo (prepData data use_raw) gOpt sff use_raw fo).residual.getD [])) rfl
  have hfinal : hasTwoDistinct
      (Velocity.compute_stochastic som fo fo2 mode
        (Velocity.init
          (fitView
            (AnnData.subsetVars (detVelo (prepData data use_raw) gOpt sff use_raw fo).velocity_genes
              (prepData data use_raw)) gOpt)
          none none sff
          (some (applyMask (detVelo (prepData data use_raw) gOpt sff use_raw fo).velocity_genes
            ((detVelo (prepData data use_raw) gOpt sff use_raw fo).residual.getD []))) false)).1.velocity_genes
      = false := by
    rw [hpres.1, init_velocity_genes]
    exact hasTwoDistinct_allTrue (false_not_mem_replicate_true _)
  simp only [velocityCore]
  rw [hgr]
  simp only [hst, if_true, hmask, Bool.and_self, Bool.true_and, hran, hfinal,
    Bool.false_eq_true, if_false]
  refine ⟨?_, ?_, ?_, ?_⟩
  · simp [List.countP_append, List.countP_cons, prepEvents_countP_stageDet,
      writePars_countP_stageDet]
  · simp [List.countP_append, List.countP_cons, prepEvents_countP_subsetVar,
      writePars_countP_subsetVar]
  · intro v hv
    simp only [Option.some.injEq] at hv
    subst hv
    refine ⟨(Velocity.init
        (fitView
          (AnnData.subsetVars (detVelo (prepData data use_raw) gOpt sff use_raw fo).velocity_genes
            (prepData data use_raw)) gOpt)
        none none sff
        (some (applyMask (detVelo (prepData data use_raw) gOpt sff use_raw fo).velocity_genes
          ((detVelo (prepData data use_raw) gOpt sff use_raw fo).residual.getD []))) false).Ms.length,
      ?_, ?_⟩
    · rw [hpres.2.1]
      rfl
    · rw [hpres.1]
      rfl
  · intro st h
    obtain rfl := Except.ok.inj h
    have hzr2 : hasTwoDistinctQ
        (Velocity.compute_stochastic som fo fo2 mode
          (Velocity.init
            (fitView
              (AnnData.subsetVars (detVelo (prepData data use_raw) gOpt sff use_raw fo).velocity_genes
                (prepData data use_raw)) gOpt)
            none none sff
            (some (applyMask (detVelo (prepData data use_raw) gOpt sff use_raw fo).velocity_genes
              ((detVelo (prepData data use_raw) gOpt sff use_raw fo).residual.getD []))) false)).1.r2
        = false := by
      rw [hpres.2.1]
      exact hasTwoDistinctQ_replicate _ _
    have hzg : hasTwoDistinctQ
        ((Velocity.compute_stochastic som fo fo2 mode
          (Velocity.init
            (fitView
              (AnnData.subsetVars (detVelo (prepData data use_raw) gOpt sff use_raw fo).velocity_genes
                (prepData data use_raw)) gOpt)
            none none sff
            (some (applyMask (detVelo (prepData data use_raw) gOpt sff use_raw fo).velocity_genes
              ((detVelo (prepData data use_raw) gOpt sff use_raw fo).residual.getD []))) false)).1.velocity_genes.map boolToQ)
        = false := by
      rw [hpres.1, init_velocity_genes, List.map_replicate]
      exact hasTwoDistinctQ_replicate _ _
    constructor
    · rw [writePars_var_lookup_r2 _ _ _ hzr2]
      cases gOpt with
      | none =>
        rw [setLayer_var, setLayer_var]
        exact subsetVars_var_lookup_none _ _ _ (by rw [prepData_var]; exact hr2)
      | some m =>
        rw [writeRows_var, writeRows_var, ensureLayer_var, ensureLayer_var]
        exact subsetVars_var_lookup_none _ _ _ (by rw [prepData_var]; exact hr2)
    · rw [writePars_var_lookup_genes _ _ _ hzg]
      cases gOpt with
      | none =>
        rw [setLayer_var, setLayer_var]
        exact subsetVars_var_lookup_none _ _ _ (by rw [prepData_var]; exact hgenes)
      | some m =>
        rw [writeRows_var, writeRows_var, ensureLayer_var, ensureLayer_var]
        exact subsetVars_var_lookup_none _ _ _ (by rw [prepData_var]; exact hgenes)

theorem core_res_isOk (som : AnnData → Mat × Mat) (data : AnnData) (vkey : String)
    (mode : Option String) (fo fo2 fg : Bool) (groups : GroupsArg) (groupby : Option String)
    (sff : Option (List Bool)) (use_raw : Bool) (gOpt : Option (List Bool))
    (hgr : resolveGroups (prepData data use_raw).obs groups groupby = Except.ok gOpt) :
    ∃ st, (velocityCore som data vkey mode fo fo2 fg groups groupby sff use_raw).res
      = Except.ok st := by
  simp only [velocityCore]
  rw [hgr]
  by_cases hst : stochasticFlag mode = true
  · simp only [hst, if_true]
    exact ⟨_, rfl⟩
  · simp only [hst, Bool.false_eq_true, if_false]
    exact ⟨_, rfl⟩

/-- Claim C9: in a stochastic run with `filter_genes=True` and a non-trivial
velocity-gene mask, the estimator rebuilt after the gene narrowing carries the
deterministic residual over, so the deterministic stage runs exactly once
(one `stageDet` event); its `r2` stays all zero and its mask all true; no
`<vkey>_r2` or `<vkey>_genes` annotation column is produced (given none was
present); and no second gene filtering happens at the end of the call (exactly
one `subsetVar` event). -/
theorem filter_rebuild_no_second_filtering (som : AnnData → Mat × Mat) (data : AnnData)
    (vkey : String) (mode : Option String) (fo fo2 : Bool) (groups : GroupsArg)
    (groupby : Option String) (sff : Option (List Bool)) (use_raw copy : Bool)
    (gOpt : Option (List Bool))
    (hst : stochasticFlag mode = true)
    (hgr : resolveGroups (prepData data use_raw).obs groups groupby = Except.ok gOpt)
    (hmask : hasTwoDistinct (detVelo (prepData data use_raw) gOpt sff use_raw fo).velocity_genes = true)
    (hr2 : data.var.lookup (vkey ++ "_r2") = none)
    (hgenes : data.var.lookup (vkey ++ "_genes") = none) :
    (velocity som data vkey mode fo fo2 true groups groupby sff use_raw copy).trace.countP
        (fun e => e == Event.stageDet) = 1
    ∧ (velocity som data vkey mode fo fo2 true groups groupby sff use_raw copy).trace.countP
        (fun e => e == Event.subsetVar) = 1
    ∧ (∀ v, (velocity som data vkey mode fo fo2 true groups groupby sff use_raw copy).velo = some v →
        ∃ n, v.r2 = List.replicate n 0 ∧ v.velocity_genes = List.replicate n true)
    ∧ (velocity som data vkey mode fo fo2 true groups groupby sff use_raw copy).res.post.var.lookup (vkey ++ "_r2") = none
    ∧ (velocity som data vkey mode fo fo2 true groups groupby sff use_raw copy).res.post.var.lookup (vkey ++ "_genes") = none := by
  obtain ⟨htr, hvl⟩ := velocity_unpack som data vkey mode fo fo2 true groups groupby sff use_raw copy
  have hcore := core_filter_rebuild som data vkey mode fo fo2 groups groupby sff use_raw gOpt
    hst hgr hmask hr2 hgenes
  obtain ⟨st, hres⟩ := core_res_isOk som data vkey mode fo fo2 true groups groupby sff use_raw gOpt hgr
  rw [htr, hvl]
  refine ⟨hcore.1, hcore.2.1, hcore.2.2.1, ?_, ?_⟩
  · simp only [velocity, hres]
    cases copy with
    | true => simpa [VResult.post] using hr2
    | false => simpa [VResult.post] using (hcore.2.2.2 st hres).1
  · simp only [velocity, hres]
    cases copy with
    | true => simpa [VResult.post] using hgenes
    | false => simpa [VResult.post] using (hcore.2.2.2 st hres).2

theorem filter_rebuild_no_second_filtering_witness :
    (velocity second_order_moments dataA "velocity" (some "stochastic") false false true .noneA none none false false).trace.countP
        (fun e => e == Event.stageDet) = 1
    ∧ (velocity second_order_moments dataA "velocity" (some "stochastic") false false true .noneA none none false false).trace.countP
        (fun e => e == Event.subsetVar) = 1
    ∧ (∀ v, (velocity second_order_moments dataA "velocity" (some "stochastic") false false true .noneA none none false false).velo = some v →
        ∃ n, v.r2 = List.replicate n 0 ∧ v.velocity_genes = List.replicate n true)
    ∧ (velocity second_order_moments dataA "velocity" (some "stochastic") false false true .noneA none none false false).res.post.var.lookup ("velocity" ++ "_r2") = none
    ∧ (velocity second_order_moments dataA "velocity" (some "stochastic") false false true .noneA none none false false).res.post.var.lookup ("velocity" ++ "_genes") = none :=
  filter_rebuild_no_second_filtering second_order_moments dataA "velocity" (some "stochastic")
    false false .noneA none none false false none
    (by decide) rfl (by with_unfolding_all decide)
    (by decide) (by decide)
